import Mathlib

/-!
Verification of the KMIP server cryptographic engine
(`kmip/services/server/crypto/engine.py`, class `CryptographyEngine`).

The engine is translated as a shallow embedding.  The engine's own logic
(capability tables, validation order, IV management, padding dispatch) is
translated directly from the Python source.  The primitives it delegates to
the external pyca/cryptography library (block ciphers, hashes, KDF cores,
RSA generation, `os.urandom`) are abstracted into a `Backend` structure whose
fields stand for the library calls exactly as the Python code makes them,
together with the library's documented contracts (output lengths).  Library
behaviour that the engine's control flow observes directly (key-size
validation in the cipher constructors, padding algorithms, the HKDF length
check, the missing `block_size` attribute of the stream cipher class) is
modelled concretely from the library's documented behaviour, with a comment
at each such definition.

Python exceptions are modelled by `Except`.  The engine's two declared error
kinds are `invalidField` and `cryptographicFailure`; `uncaught` stands for
any exception that escapes the engine without being translated to one of the
declared kinds (e.g. `ValueError`, `TypeError`, `AttributeError` raised by
the library inside a region the engine does not wrap in try/except).
-/

namespace KmipEngine

/-- Enumeration `kmip.core.enums.CryptographicAlgorithm`, restricted to the
values the engine's tables mention. -/
inductive CryptographicAlgorithm where
  | TRIPLE_DES | AES | BLOWFISH | CAMELLIA | CAST5 | IDEA | RC4
  | RSA
  | HMAC_SHA1 | HMAC_SHA224 | HMAC_SHA256 | HMAC_SHA384 | HMAC_SHA512 | HMAC_MD5
deriving DecidableEq

/-- Enumeration `kmip.core.enums.BlockCipherMode`, restricted to the values
the engine's tables mention. -/
inductive BlockCipherMode where
  | CBC | ECB | OFB | CFB | CTR | GCM | NIST_KEY_WRAP
deriving DecidableEq

/-- Enumeration `kmip.core.enums.PaddingMethod`, restricted to the values the
engine's tables mention. -/
inductive PaddingMethod where
  | ANSI_X923 | PKCS5 | OAEP | PKCS1v15
deriving DecidableEq

/-- Enumeration `kmip.core.enums.HashingAlgorithm`, restricted to the values
the engine's tables mention plus one value outside every table. -/
inductive HashingAlgorithm where
  | MD5 | SHA_1 | SHA_224 | SHA_256 | SHA_384 | SHA_512 | RIPEMD_160
deriving DecidableEq

/-- Enumeration `kmip.core.enums.DerivationMethod`, restricted to the values
`derive_key` dispatches on plus one value outside the dispatch. -/
inductive DerivationMethod where
  | ENCRYPT | HMAC | HASH | PBKDF2 | NIST800_108_C | NIST800_108_F
deriving DecidableEq

/-- Enumeration `kmip.core.enums.KeyFormatType`, restricted to the values the
engine produces. -/
inductive KeyFormatType where
  | RAW | PKCS_1 | PKCS_8
deriving DecidableEq

/-- Outcome kinds of an engine call.  `invalidField` models
`kmip.core.exceptions.InvalidField`, `cryptographicFailure` models
`kmip.core.exceptions.CryptographicFailure`, and `uncaught` models any other
Python exception escaping the engine untranslated. -/
inductive EngineError where
  | invalidField | cryptographicFailure | uncaught
deriving DecidableEq

/-- Result dictionary of `create_symmetric_key`. -/
structure KeyResult where
  value : List Nat
  format : KeyFormatType
deriving DecidableEq

/-- Result dictionary of `_create_rsa_key_pair` (one of the pair). -/
structure AsymKeyResult where
  value : List Nat
  format : KeyFormatType
  public_exponent : Nat
deriving DecidableEq

/-- Result dictionary of `encrypt`: the `iv_nonce` field is present exactly
when the Python dictionary carries the `iv_nonce` key. -/
structure EncryptResult where
  cipher_text : List Nat
  iv_nonce : Option (List Nat)
deriving DecidableEq

/-- Membership in the table `self._symmetric_key_algorithms` built in
`CryptographyEngine.__init__`. -/
def symmetricKeySupported : CryptographicAlgorithm → Bool
  | .TRIPLE_DES | .AES | .BLOWFISH | .CAMELLIA | .CAST5 | .IDEA | .RC4 => true
  | _ => false

/-- Membership in the table `self._asymmetric_key_algorithms` built in
`CryptographyEngine.__init__` (only RSA). -/
def asymmetricKeySupported : CryptographicAlgorithm → Bool
  | .RSA => true
  | _ => false

/-- Membership in the table `self._modes` built in
`CryptographyEngine.__init__` (GCM and NIST_KEY_WRAP are deliberately
excluded there). -/
def modeSupported : BlockCipherMode → Bool
  | .CBC | .ECB | .OFB | .CFB | .CTR => true
  | _ => false

/-- Modelled from the cryptography library: whether the mode class has an
`initialization_vector` or `nonce` attribute, which is the test the engine
performs with `hasattr` before demanding or generating an IV.  CBC, OFB and
CFB carry `initialization_vector`; CTR carries `nonce`; ECB carries
neither. -/
def modeNeedsIv : BlockCipherMode → Bool
  | .CBC | .OFB | .CFB | .CTR => true
  | _ => false

/-- Membership in the table `self._symmetric_padding_methods` built in
`CryptographyEngine.__init__` (ANSI_X923 and PKCS5, the latter mapped to the
library's PKCS7 padder). -/
def symmetricPaddingSupported : PaddingMethod → Bool
  | .ANSI_X923 | .PKCS5 => true
  | _ => false

/-- Membership in the table `self._encryption_hash_algorithms` built in
`CryptographyEngine.__init__`. -/
def encryptionHashSupported : HashingAlgorithm → Bool
  | .MD5 | .SHA_1 | .SHA_224 | .SHA_256 | .SHA_384 | .SHA_512 => true
  | _ => false

/-- Modelled from the cryptography library: the `key_sizes` attribute (in
bits) of each cipher algorithm class the engine maps to, as checked by the
class constructors (`_verify_key_size`) and read directly by
`create_symmetric_key`.  TripleDES accepts 64/128/192 (short keys are
expanded), AES and Camellia 128/192/256, Blowfish any multiple of 8 between
32 and 448, CAST5 any multiple of 8 between 40 and 128, IDEA exactly 128,
and ARC4 the listed stream-cipher sizes. -/
def keySizeValid : CryptographicAlgorithm → Nat → Bool
  | .TRIPLE_DES, n => n == 64 || n == 128 || n == 192
  | .AES, n => n == 128 || n == 192 || n == 256
  | .BLOWFISH, n => decide (32 ≤ n) && decide (n ≤ 448) && n % 8 == 0
  | .CAMELLIA, n => n == 128 || n == 192 || n == 256
  | .CAST5, n => decide (40 ≤ n) && decide (n ≤ 128) && n % 8 == 0
  | .IDEA, n => n == 128
  | .RC4, n =>
      n == 40 || n == 56 || n == 64 || n == 80 || n == 128 || n == 160 ||
      n == 192 || n == 256
  | _, _ => false

/-- Modelled from the cryptography library: constructing a cipher algorithm
object over the given key bytes succeeds exactly when the key's bit length is
one of the class's `key_sizes`; otherwise the constructor raises, which the
engine catches as `CryptographicFailure`. -/
def algKeyValid (a : CryptographicAlgorithm) (key : List Nat) : Bool :=
  keySizeValid a (key.length * 8)

/-- Modelled from the cryptography library: the `block_size` attribute (in
bits) of each cipher algorithm class.  The stream cipher class ARC4 has no
`block_size` attribute at all, so reading it raises `AttributeError`; that
absence is modelled as `none`. -/
def blockSizeBits : CryptographicAlgorithm → Option Nat
  | .TRIPLE_DES => some 64
  | .AES => some 128
  | .BLOWFISH => some 64
  | .CAMELLIA => some 128
  | .CAST5 => some 64
  | .IDEA => some 64
  | _ => none

/-- Modelled from the cryptography library: the `digest_size` attribute (in
bytes) of each hash class the engine maps to. -/
def digestSize : HashingAlgorithm → Nat
  | .MD5 => 16
  | .SHA_1 => 20
  | .SHA_224 => 28
  | .SHA_256 => 32
  | .SHA_384 => 48
  | .SHA_512 => 64
  | .RIPEMD_160 => 20

/-- Modelled from the cryptography library: the PKCS7 padder over a block
size given in bits.  It always appends between 1 and blockBytes bytes, each
equal to the count of appended bytes; block-aligned input receives a full
extra block. -/
def pkcs7Pad (blockBits : Nat) (d : List Nat) : List Nat :=
  let b := blockBits / 8
  let padLen := b - d.length % b
  d ++ List.replicate padLen padLen

/-- Modelled from the cryptography library: the ANSI X.923 padder over a
block size given in bits.  It appends zero bytes followed by one byte holding
the count of appended bytes; block-aligned input receives a full extra
block. -/
def ansix923Pad (blockBits : Nat) (d : List Nat) : List Nat :=
  let b := blockBits / 8
  let padLen := b - d.length % b
  d ++ List.replicate (padLen - 1) 0 ++ [padLen]

/-- Modelled from the cryptography library: the PKCS7 unpadder.  It rejects
input that is empty or not block-aligned, or whose final byte is not a valid
pad length, or whose tail bytes do not all equal the pad length. -/
def pkcs7Unpad (blockBits : Nat) (d : List Nat) : Option (List Nat) :=
  let b := blockBits / 8
  if d.length % b = 0 ∧ d.length ≠ 0 then
    match d.getLast? with
    | none => none
    | some n =>
        if 1 ≤ n ∧ n ≤ b ∧ (d.drop (d.length - n)).all (· == n) then
          some (d.take (d.length - n))
        else none
  else none

/-- Modelled from the cryptography library: the ANSI X.923 unpadder.  It
rejects input that is empty or not block-aligned, or whose final byte is not
a valid pad length, or whose pad bytes before the final byte are not zero. -/
def ansix923Unpad (blockBits : Nat) (d : List Nat) : Option (List Nat) :=
  let b := blockBits / 8
  if d.length % b = 0 ∧ d.length ≠ 0 then
    match d.getLast? with
    | none => none
    | some n =>
        if 1 ≤ n ∧ n ≤ b ∧
            ((d.take (d.length - 1)).drop (d.length - n)).all (· == 0) then
          some (d.take (d.length - n))
        else none
  else none

/-- Dispatch of the supported symmetric padders, mirroring the lookup in
`self._symmetric_padding_methods` (PKCS5 maps to the PKCS7 padder).  The
catch-all branch is unreachable behind `symmetricPaddingSupported`. -/
def applySymmetricPadding : PaddingMethod → Nat → List Nat → List Nat
  | .ANSI_X923, b, d => ansix923Pad b d
  | .PKCS5, b, d => pkcs7Pad b d
  | _, _, d => d

/-- Dispatch of the supported symmetric unpadders, mirroring the lookup in
`self._symmetric_padding_methods`.  The catch-all branch is unreachable
behind `symmetricPaddingSupported`. -/
def removeSymmetricPadding : PaddingMethod → Nat → List Nat → Option (List Nat)
  | .ANSI_X923, b, d => ansix923Unpad b d
  | .PKCS5, b, d => pkcs7Unpad b d
  | _, _, d => some d

/-- Abstraction of the external pyca/cryptography primitives and `os.urandom`
exactly as `CryptographyEngine` calls them, together with the library's
documented output-length contracts.  A cipher call returning `none` stands
for the library raising an exception at `update`/`finalize`, which the engine
does not catch. -/
structure Backend where
  urandom : Nat → List Nat
  cipherEncrypt : CryptographicAlgorithm → List Nat →
    Option (BlockCipherMode × Option (List Nat)) → List Nat → Option (List Nat)
  cipherDecrypt : CryptographicAlgorithm → List Nat →
    Option (BlockCipherMode × Option (List Nat)) → List Nat → Option (List Nat)
  hashDigest : HashingAlgorithm → List Nat → List Nat
  hkdf : HashingAlgorithm → Nat → Option (List Nat) → Option (List Nat) →
    List Nat → List Nat
  pbkdf2 : HashingAlgorithm → Nat → List Nat → Nat → List Nat → List Nat
  kbkdf : HashingAlgorithm → Nat → List Nat → List Nat → List Nat
  rsaGenerate : Nat → Nat → List Nat × List Nat
  urandomLen : ∀ n, (urandom n).length = n
  hashDigestLen : ∀ h d, (hashDigest h d).length = digestSize h
  hkdfLen : ∀ h len salt info k, (hkdf h len salt info k).length = len
  pbkdf2Len : ∀ h len salt iters k, (pbkdf2 h len salt iters k).length = len

/-- Concrete backend instance used to evaluate the engine on explicit
inputs: the cipher cores are the identity, random bytes are zero, digests
and derived keys are zero-filled buffers of the contracted lengths. -/
def testBackend : Backend where
  urandom := fun n => List.replicate n 0
  cipherEncrypt := fun _ _ _ d => some d
  cipherDecrypt := fun _ _ _ d => some d
  hashDigest := fun h _ => List.replicate (digestSize h) 0
  hkdf := fun _ len _ _ _ => List.replicate len 0
  pbkdf2 := fun _ len _ _ _ => List.replicate len 0
  kbkdf := fun _ len _ _ => List.replicate len 0
  rsaGenerate := fun _ _ => ([0], [0])
  urandomLen := fun n => by simp
  hashDigestLen := fun h d => by simp
  hkdfLen := fun h len salt info k => by simp
  pbkdf2Len := fun h len salt iters k => by simp

/-- Translation of `CryptographyEngine._handle_symmetric_padding`.  The
membership test on `self._symmetric_padding_methods` comes first; a missing
or unsupported padding method is `InvalidField`.  In the supported branch the
source evaluates `algorithm.block_size`, which raises `AttributeError` on the
stream cipher class (modelled by `algBlockBits = none`), then runs the padder
or, when `undo_padding` is set, the unpadder; padder input that is not bytes
and unpadder rejections raise library errors the engine does not catch. -/
def handle_symmetric_padding (algBlockBits : Option Nat)
    (plain_text : Option (List Nat)) (padding_method : Option PaddingMethod)
    (undo_padding : Bool) : Except EngineError (List Nat) :=
  match padding_method with
  | some pm =>
      if symmetricPaddingSupported pm then
        match algBlockBits with
        | none => .error .uncaught
        | some b =>
            match plain_text with
            | none => .error .uncaught
            | some d =>
                if undo_padding then
                  match removeSymmetricPadding pm b d with
                  | some r => .ok r
                  | none => .error .uncaught
                else .ok (applySymmetricPadding pm b d)
      else .error .invalidField
  | none => .error .invalidField

/-- Translation of the mode-setup block of `CryptographyEngine.encrypt`
(lines 358-379): RC4 skips mode setup entirely; otherwise the mode is
required and must be in `self._modes`; an IV-carrying mode with no supplied
IV gets `block_size // 8` fresh random bytes which are marked for return
(second component); a supplied IV is used as-is and not marked. -/
def setupMode (B : Backend) (ealg : CryptographicAlgorithm)
    (cipher_mode : Option BlockCipherMode) (iv_nonce : Option (List Nat)) :
    Except EngineError
      (Option (BlockCipherMode × Option (List Nat)) × Option (List Nat)) :=
  if ealg = .RC4 then
    .ok (none, none)
  else
    match cipher_mode with
    | none => .error .invalidField
    | some cm =>
        if modeSupported cm then
          if modeNeedsIv cm then
            match iv_nonce with
            | none =>
                match blockSizeBits ealg with
                | none => .error .uncaught
                | some b =>
                    let iv := B.urandom (b / 8)
                    .ok (some (cm, some iv), some iv)
            | some iv => .ok (some (cm, some iv), none)
          else .ok (some (cm, none), none)
        else .error .invalidField

/-- Translation of `CryptographyEngine.encrypt`.  Algorithm required and
looked up in `self._symmetric_key_algorithms` (miss is `InvalidField`), key
bytes validated by the algorithm constructor (failure caught as
`CryptographicFailure`), mode set up, then the plaintext is padded whenever
the supplied `cipher_mode` is CBC or ECB (regardless of whether a mode is
actually in use), and finally the cipher runs; the IV is returned only when
it was auto-generated. -/
def encrypt (B : Backend) (encryption_algorithm : Option CryptographicAlgorithm)
    (encryption_key : Option (List Nat)) (plain_text : Option (List Nat))
    (cipher_mode : Option BlockCipherMode) (padding_method : Option PaddingMethod)
    (iv_nonce : Option (List Nat)) : Except EngineError EncryptResult :=
  match encryption_algorithm with
  | none => .error .invalidField
  | some ealg =>
      if symmetricKeySupported ealg then
        match encryption_key with
        | none => .error .cryptographicFailure
        | some key =>
            if algKeyValid ealg key then
              match setupMode B ealg cipher_mode iv_nonce with
              | .error e => .error e
              | .ok (mode, retIv) =>
                  match
                    if cipher_mode = some .CBC ∨ cipher_mode = some .ECB then
                      handle_symmetric_padding (blockSizeBits ealg) plain_text
                        padding_method false
                    else
                      match plain_text with
                      | none => .error .uncaught
                      | some d => .ok d
                  with
                  | .error e => .error e
                  | .ok padded =>
                      match B.cipherEncrypt ealg key mode padded with
                      | none => .error .uncaught
                      | some ct => .ok { cipher_text := ct, iv_nonce := retIv }
            else .error .cryptographicFailure
      else .error .invalidField

/-- Translation of the mode-setup block of `CryptographyEngine.decrypt`
(lines 520-541): identical to the encrypt side except that an IV-carrying
mode with no supplied IV is `InvalidField` instead of triggering
generation. -/
def setupModeDecrypt (dalg : CryptographicAlgorithm)
    (cipher_mode : Option BlockCipherMode) (iv_nonce : Option (List Nat)) :
    Except EngineError (Option (BlockCipherMode × Option (List Nat))) :=
  if dalg = .RC4 then
    .ok none
  else
    match cipher_mode with
    | none => .error .invalidField
    | some cm =>
        if modeSupported cm then
          if modeNeedsIv cm then
            match iv_nonce with
            | none => .error .invalidField
            | some iv => .ok (some (cm, some iv))
          else .ok (some (cm, none))
        else .error .invalidField

/-- Translation of `CryptographyEngine.decrypt`.  After the cipher runs, the
source calls `_handle_symmetric_padding` for CBC/ECB without passing
`undo_padding`, so the Python default `undo_padding=False` applies and the
padder (not the unpadder) runs on the decrypted bytes; the translation
passes `false` accordingly. -/
def decrypt (B : Backend) (decryption_algorithm : Option CryptographicAlgorithm)
    (decryption_key : Option (List Nat)) (cipher_text : List Nat)
    (cipher_mode : Option BlockCipherMode) (padding_method : Option PaddingMethod)
    (iv_nonce : Option (List Nat)) : Except EngineError (List Nat) :=
  match decryption_algorithm with
  | none => .error .invalidField
  | some dalg =>
      if symmetricKeySupported dalg then
        match decryption_key with
        | none => .error .cryptographicFailure
        | some key =>
            if algKeyValid dalg key then
              match setupModeDecrypt dalg cipher_mode iv_nonce with
              | .error e => .error e
              | .ok mode =>
                  match B.cipherDecrypt dalg key mode cipher_text with
                  | none => .error .uncaught
                  | some plain =>
                      if cipher_mode = some .CBC ∨ cipher_mode = some .ECB then
                        handle_symmetric_padding (blockSizeBits dalg)
                          (some plain) padding_method false
                      else .ok plain
            else .error .cryptographicFailure
      else .error .invalidField

/-- Translation of `CryptographyEngine.create_symmetric_key`: algorithm must
be in `self._symmetric_key_algorithms` and the length in the class's
`key_sizes` (each miss is `InvalidField`); then `length // 8` random bytes
are drawn and sanity-checked by the class constructor (failure caught as
`CryptographicFailure`); the result is the bytes tagged RAW. -/
def create_symmetric_key (B : Backend) (algorithm : CryptographicAlgorithm)
    (length : Nat) : Except EngineError KeyResult :=
  if symmetricKeySupported algorithm then
    if keySizeValid algorithm length then
      let key_bytes := B.urandom (length / 8)
      if algKeyValid algorithm key_bytes then
        .ok { value := key_bytes, format := .RAW }
      else .error .cryptographicFailure
    else .error .invalidField
  else .error .invalidField

/-- Modelled from the cryptography library: `rsa.generate_private_key`
accepts public exponent 3 or 65537 and raises `ValueError` for a modulus
size below 512 bits; any such rejection is what the engine's try/except
catches. -/
def rsaGenerationOk (public_exponent length : Nat) : Bool :=
  (public_exponent == 3 || public_exponent == 65537) && decide (512 ≤ length)

/-- Translation of `CryptographyEngine._create_rsa_key_pair`: any failure of
generation or serialization is caught as `CryptographicFailure`; on success
the public key is tagged PKCS_1 and the private key PKCS_8, both carrying the
public exponent. -/
def create_rsa_key_pair (B : Backend) (length public_exponent : Nat) :
    Except EngineError (AsymKeyResult × AsymKeyResult) :=
  if rsaGenerationOk public_exponent length then
    let pair := B.rsaGenerate public_exponent length
    .ok ({ value := pair.1, format := .PKCS_1, public_exponent := public_exponent },
         { value := pair.2, format := .PKCS_8, public_exponent := public_exponent })
  else .error .cryptographicFailure

/-- Translation of `CryptographyEngine.create_asymmetric_key_pair`: the
algorithm must be in `self._asymmetric_key_algorithms` (miss is
`InvalidField`); the RSA entry dispatches to `_create_rsa_key_pair` with the
default public exponent 65537. -/
def create_asymmetric_key_pair (B : Backend)
    (algorithm : CryptographicAlgorithm) (length : Nat) :
    Except EngineError (AsymKeyResult × AsymKeyResult) :=
  if asymmetricKeySupported algorithm then
    create_rsa_key_pair B length 65537
  else .error .invalidField

/-- Modelled from the cryptography library: `hkdf.HKDF.__init__` raises
`ValueError` when the requested length exceeds 255 times the digest size,
and `derive` raises `TypeError` when the key material is not bytes; neither
is caught by `derive_key`. -/
def hkdfDerive (B : Backend) (h : HashingAlgorithm) (length : Nat)
    (salt info : Option (List Nat)) (key_material : Option (List Nat)) :
    Except EngineError (List Nat) :=
  if 255 * digestSize h < length then .error .uncaught
  else
    match key_material with
    | none => .error .uncaught
    | some k => .ok (B.hkdf h length salt info k)

/-- Modelled from the cryptography library: `pbkdf2.PBKDF2HMAC.derive` raises
`TypeError` when the key material is not bytes; `derive_key` does not catch
it. -/
def pbkdf2Derive (B : Backend) (h : HashingAlgorithm) (length : Nat)
    (salt : List Nat) (iterations : Nat) (key_material : Option (List Nat)) :
    Except EngineError (List Nat) :=
  match key_material with
  | none => .error .uncaught
  | some k => .ok (B.pbkdf2 h length salt iterations k)

/-- Modelled from the cryptography library: `kbkdf.KBKDFHMAC` requires fixed
input data (the engine passes `llen=None`, so a missing `fixed` raises
`ValueError`) and byte key material; neither failure is caught by
`derive_key`. -/
def kbkdfDerive (B : Backend) (h : HashingAlgorithm) (length : Nat)
    (data key_material : Option (List Nat)) : Except EngineError (List Nat) :=
  match data with
  | none => .error .uncaught
  | some d =>
      match key_material with
      | none => .error .uncaught
      | some k => .ok (B.kbkdf h length d k)

/-- Translation of `CryptographyEngine.derive_key`.  ENCRYPT delegates to
`encrypt` with the key material as key and the derivation data as plaintext,
keeping only the `cipher_text` field of the result.  Every other method first
requires a hash algorithm resolvable in `self._encryption_hash_algorithms`,
then dispatches to HKDF, plain hashing (exactly one of data and key material
must be present), PBKDF2 (salt and iteration count required) or NIST 800-108
counter mode; an unknown method is `InvalidField`. -/
def derive_key (B : Backend) (derivation_method : DerivationMethod)
    (derivation_length : Nat) (derivation_data : Option (List Nat))
    (key_material : Option (List Nat))
    (hash_algorithm : Option HashingAlgorithm) (salt : Option (List Nat))
    (iteration_count : Option Nat)
    (encryption_algorithm : Option CryptographicAlgorithm)
    (cipher_mode : Option BlockCipherMode)
    (padding_method : Option PaddingMethod) (iv_nonce : Option (List Nat)) :
    Except EngineError (List Nat) :=
  if derivation_method = .ENCRYPT then
    match encrypt B encryption_algorithm key_material derivation_data
        cipher_mode padding_method iv_nonce with
    | .error e => .error e
    | .ok result => .ok result.cipher_text
  else
    match hash_algorithm with
    | none => .error .invalidField
    | some h =>
        if encryptionHashSupported h then
          if derivation_method = .HMAC then
            hkdfDerive B h derivation_length salt derivation_data key_material
          else if derivation_method = .HASH then
            if derivation_data.isSome && key_material.isSome then
              .error .invalidField
            else
              match derivation_data with
              | some d => .ok (B.hashDigest h d)
              | none =>
                  match key_material with
                  | some k => .ok (B.hashDigest h k)
                  | none => .error .invalidField
          else if derivation_method = .PBKDF2 then
            match salt with
            | none => .error .invalidField
            | some s =>
                match iteration_count with
                | none => .error .invalidField
                | some ic =>
                    pbkdf2Derive B h derivation_length s ic key_material
          else if derivation_method = .NIST800_108_C then
            kbkdfDerive B h derivation_length derivation_data key_material
          else .error .invalidField
        else .error .invalidField

/-- Every key size accepted by `keySizeValid` is a multiple of 8 bits, so
drawing `length / 8` bytes reproduces exactly `length` bits. -/
lemma keySizeValid_mod_eight (a : CryptographicAlgorithm) (n : Nat)
    (h : keySizeValid a n = true) : n % 8 = 0 := by
  cases a <;> simp [keySizeValid] at h <;> omega

/-- Supported non-stream cipher algorithms expose a block size. -/
lemma blockSizeBits_isSome (a : CryptographicAlgorithm)
    (hs : symmetricKeySupported a = true) (hr : a ≠ .RC4) :
    ∃ b, blockSizeBits a = some b := by
  cases a <;> first
    | exact ⟨_, rfl⟩
    | simp_all [symmetricKeySupported, blockSizeBits]

/-- C3: for every supported symmetric algorithm and legal bit length,
`create_symmetric_key` returns a key of exactly `length / 8` bytes tagged
RAW; an unsupported algorithm or an illegal length yields `InvalidField`. -/
theorem create_symmetric_key_spec (B : Backend) (a : CryptographicAlgorithm)
    (len : Nat) :
    (symmetricKeySupported a = true → keySizeValid a len = true →
      ∃ r, create_symmetric_key B a len = .ok r ∧
        r.value.length = len / 8 ∧ r.format = .RAW) ∧
    (symmetricKeySupported a = false ∨ keySizeValid a len = false →
      create_symmetric_key B a len = .error .invalidField) := by
  constructor
  · intro hs hl
    have hdvd : 8 ∣ len := Nat.dvd_of_mod_eq_zero (keySizeValid_mod_eight a len hl)
    have hak : algKeyValid a (B.urandom (len / 8)) = true := by
      unfold algKeyValid
      rw [B.urandomLen, Nat.div_mul_cancel hdvd]
      exact hl
    exact ⟨{ value := B.urandom (len / 8), format := .RAW },
      by simp [create_symmetric_key, hs, hl, hak], B.urandomLen (len / 8), rfl⟩
  · intro h
    rcases h with h | h
    · simp [create_symmetric_key, h]
    · by_cases hs : symmetricKeySupported a <;>
        simp [create_symmetric_key, hs, h]

/-- Witness for C3 at AES with 256 bits. -/
theorem create_symmetric_key_spec_witness :
    symmetricKeySupported .AES = true ∧ keySizeValid .AES 256 = true ∧
    ∃ r, create_symmetric_key testBackend .AES 256 = .ok r ∧
      r.value.length = 256 / 8 ∧ r.format = .RAW :=
  ⟨rfl, by decide,
    (create_symmetric_key_spec testBackend .AES 256).1 rfl (by decide)⟩

/-- C4 (amended): absent pairs make `create_symmetric_key` fail with
`InvalidField`, and an unsupported asymmetric algorithm makes
`create_asymmetric_key_pair` fail with `InvalidField`; but an RSA modulus
length the generator rejects surfaces as `CryptographicFailure`, not
`InvalidField`. -/
theorem key_generation_error_kind_spec (B : Backend)
    (a : CryptographicAlgorithm) (len : Nat) :
    (symmetricKeySupported a = false ∨ keySizeValid a len = false →
      create_symmetric_key B a len = .error .invalidField) ∧
    (asymmetricKeySupported a = false →
      create_asymmetric_key_pair B a len = .error .invalidField) ∧
    (rsaGenerationOk 65537 len = false →
      create_asymmetric_key_pair B .RSA len = .error .cryptographicFailure) := by
  refine ⟨?_, ?_, ?_⟩
  · intro h
    rcases h with h | h
    · simp [create_symmetric_key, h]
    · by_cases hs : symmetricKeySupported a <;>
        simp [create_symmetric_key, hs, h]
  · intro h
    simp [create_asymmetric_key_pair, h]
  · intro h
    simp [create_asymmetric_key_pair, asymmetricKeySupported,
      create_rsa_key_pair, h]

/-- Counterexample for C4 as stated: RSA with the illegal modulus length 100
raises `CryptographicFailure`, not `InvalidField`. -/
theorem asymmetric_bad_length_counterexample :
    create_asymmetric_key_pair testBackend .RSA 100 =
      .error .cryptographicFailure ∧
    EngineError.cryptographicFailure ≠ EngineError.invalidField :=
  ⟨rfl, by decide⟩

/-- Witness for the amended C4. -/
theorem key_generation_error_kind_witness :
    create_symmetric_key testBackend .RSA 64 = .error .invalidField ∧
    create_asymmetric_key_pair testBackend .AES 2048 = .error .invalidField ∧
    create_asymmetric_key_pair testBackend .RSA 100 =
      .error .cryptographicFailure :=
  ⟨(key_generation_error_kind_spec testBackend .RSA 64).1 (Or.inl rfl),
   (key_generation_error_kind_spec testBackend .AES 2048).2.1 rfl,
   (key_generation_error_kind_spec testBackend .AES 100).2.2 (by decide)⟩

/-- Plaintext used to evaluate the round-trip behaviour: one full AES
block. -/
def c1Pt : List Nat := List.replicate 16 1

/-- C1: evaluation of the round-trip at AES-128/CBC/PKCS5 over the concrete
backend whose cipher core is the identity.  Encrypt pads the one-block
plaintext to two blocks and auto-generates a 16-byte IV; decrypt with that
IV returns the decrypted bytes with a further full block of padding appended
(because `decrypt` runs the padder instead of the unpadder), so the round
trip yields 48 bytes instead of the original 16. -/
theorem round_trip_double_padding_eval :
    encrypt testBackend (some .AES) (some (List.replicate 16 0)) (some c1Pt)
        (some .CBC) (some .PKCS5) none =
      .ok { cipher_text := c1Pt ++ List.replicate 16 16,
            iv_nonce := some (List.replicate 16 0) } ∧
    decrypt testBackend (some .AES) (some (List.replicate 16 0))
        (c1Pt ++ List.replicate 16 16) (some .CBC) (some .PKCS5)
        (some (List.replicate 16 0)) =
      .ok (c1Pt ++ List.replicate 16 16 ++ List.replicate 16 16) ∧
    c1Pt ++ List.replicate 16 16 ++ List.replicate 16 16 ≠ c1Pt :=
  ⟨rfl, rfl, by decide⟩

/-- Ciphertext used to evaluate the decrypt padding direction: under the
identity cipher core it decrypts to an 8-byte plaintext with valid 8-byte
PKCS7 padding. -/
def c2Ct : List Nat := List.replicate 8 2 ++ List.replicate 8 8

/-- C2: evaluation of `decrypt` at AES-128/CBC/PKCS5 over the concrete
backend whose cipher core is the identity.  The decrypted bytes carry valid
PKCS7 padding whose removal would give the 8-byte plaintext, yet `decrypt`
returns the decrypted bytes with another full block of padding appended:
the padding method is applied to add padding, not to remove it. -/
theorem decrypt_adds_padding_eval :
    decrypt testBackend (some .AES) (some (List.replicate 16 3)) c2Ct
        (some .CBC) (some .PKCS5) (some (List.replicate 16 4)) =
      .ok (c2Ct ++ List.replicate 16 16) ∧
    pkcs7Unpad 128 c2Ct = some (List.replicate 8 2) ∧
    c2Ct ++ List.replicate 16 16 ≠ List.replicate 8 2 :=
  ⟨rfl, by decide, by decide⟩

/-- C5: for every supported non-stream algorithm and supported IV-carrying
mode, a successful `encrypt` call with no supplied IV auto-generates exactly
`block_size / 8` fresh bytes and returns them in the result, while a
successful call with a supplied IV returns no IV field at all. -/
theorem encrypt_autogenerated_iv_spec (B : Backend)
    (alg : CryptographicAlgorithm) (cm : BlockCipherMode)
    (hs : symmetricKeySupported alg = true) (hr : alg ≠ .RC4)
    (hm : modeSupported cm = true) (hiv : modeNeedsIv cm = true) :
    (∀ key pt pm r,
      encrypt B (some alg) key pt (some cm) pm none = .ok r →
      ∃ b, blockSizeBits alg = some b ∧
        r.iv_nonce = some (B.urandom (b / 8)) ∧
        (B.urandom (b / 8)).length = b / 8) ∧
    (∀ key pt pm iv r,
      encrypt B (some alg) key pt (some cm) pm (some iv) = .ok r →
      r.iv_nonce = none) := by
  obtain ⟨bb, hb⟩ := blockSizeBits_isSome alg hs hr
  constructor
  · intro key pt pm r h
    have hsetup : setupMode B alg (some cm) none =
        .ok (some (cm, some (B.urandom (bb / 8))), some (B.urandom (bb / 8))) := by
      simp [setupMode, hr, hm, hiv, hb]
    refine ⟨bb, hb, ?_, B.urandomLen _⟩
    simp only [encrypt, hs, if_true] at h
    match key with
    | none => simp at h
    | some k =>
      by_cases hk : algKeyValid alg k
      · simp only [hk, if_true, hsetup] at h
        split at h
        · simp at h
        · split at h
          · simp at h
          · injection h with h
            rw [← h]
      · simp [hk] at h
  · intro key pt pm iv r h
    have hsetup : setupMode B alg (some cm) (some iv) =
        .ok (some (cm, some iv), none) := by
      simp [setupMode, hr, hm, hiv]
    simp only [encrypt, hs, if_true] at h
    match key with
    | none => simp at h
    | some k =>
      by_cases hk : algKeyValid alg k
      · simp only [hk, if_true, hsetup] at h
        split at h
        · simp at h
        · split at h
          · simp at h
          · injection h with h
            rw [← h]
      · simp [hk] at h

/-- Witness for C5 at AES/CBC/PKCS5 over the concrete backend. -/
theorem encrypt_autogenerated_iv_witness :
    (∃ b, blockSizeBits .AES = some b ∧
      EncryptResult.iv_nonce
          { cipher_text := List.replicate 16 1 ++ List.replicate 16 16,
            iv_nonce := some (List.replicate 16 0) } =
        some (testBackend.urandom (b / 8)) ∧
      (testBackend.urandom (b / 8)).length = b / 8) ∧
    EncryptResult.iv_nonce
        { cipher_text := List.replicate 16 1 ++ List.replicate 16 16,
          iv_nonce := none } = none := by
  constructor
  · exact (encrypt_autogenerated_iv_spec testBackend .AES .CBC rfl (by decide)
      rfl rfl).1 (some (List.replicate 16 0)) (some (List.replicate 16 1))
      (some .PKCS5)
      { cipher_text := List.replicate 16 1 ++ List.replicate 16 16,
        iv_nonce := some (List.replicate 16 0) } rfl
  · exact (encrypt_autogenerated_iv_spec testBackend .AES .CBC rfl (by decide)
      rfl rfl).2 (some (List.replicate 16 0)) (some (List.replicate 16 1))
      (some .PKCS5) (List.replicate 16 7)
      { cipher_text := List.replicate 16 1 ++ List.replicate 16 16,
        iv_nonce := none } rfl

/-- C6 (amended): with well-formed key bytes, a `decrypt` call over a
supported non-stream algorithm and a supported IV-carrying mode but no
supplied IV fails with `InvalidField` (the failure arises in mode setup,
before any decryption). -/
theorem decrypt_missing_iv_spec (B : Backend) (alg : CryptographicAlgorithm)
    (key ct : List Nat) (cm : BlockCipherMode) (pm : Option PaddingMethod)
    (hs : symmetricKeySupported alg = true) (hr : alg ≠ .RC4)
    (hm : modeSupported cm = true) (hiv : modeNeedsIv cm = true)
    (hk : algKeyValid alg key = true) :
    decrypt B (some alg) (some key) ct (some cm) pm none =
      .error .invalidField := by
  have hsetup : setupModeDecrypt alg (some cm) none = .error .invalidField := by
    simp [setupModeDecrypt, hr, hm, hiv]
  simp [decrypt, hs, hk, hsetup]

/-- Counterexample for C6 as stated: a malformed key makes the same call
fail with `CryptographicFailure` during key setup instead of
`InvalidField`. -/
theorem decrypt_missing_iv_counterexample :
    decrypt testBackend (some .AES) (some [0]) [] (some .CBC) none none =
      .error .cryptographicFailure ∧
    EngineError.cryptographicFailure ≠ EngineError.invalidField :=
  ⟨rfl, by decide⟩

/-- Witness for the amended C6 at AES/CBC with a valid 128-bit key. -/
theorem decrypt_missing_iv_witness :
    decrypt testBackend (some .AES) (some (List.replicate 16 0)) []
        (some .CBC) none none = .error .invalidField :=
  decrypt_missing_iv_spec testBackend .AES (List.replicate 16 0) [] .CBC none
    rfl (by decide) rfl rfl (by decide)

/-- C7: hash-based derivation with a supported hash rejects calls supplying
both or neither of derivation data and key material with `InvalidField`;
with exactly one buffer supplied it returns that buffer's digest, whose
length is the hash's natural digest size, and the result does not depend on
the requested derivation length. -/
theorem derive_key_hash_spec (B : Backend) (len len2 : Nat)
    (data km : Option (List Nat)) (h : HashingAlgorithm)
    (salt : Option (List Nat)) (ic : Option Nat)
    (ea : Option CryptographicAlgorithm) (cm : Option BlockCipherMode)
    (pm : Option PaddingMethod) (iv : Option (List Nat))
    (hh : encryptionHashSupported h = true) :
    (data.isSome = true → km.isSome = true →
      derive_key B .HASH len data km (some h) salt ic ea cm pm iv =
        .error .invalidField) ∧
    (data = none → km = none →
      derive_key B .HASH len data km (some h) salt ic ea cm pm iv =
        .error .invalidField) ∧
    (∀ d, data = some d → km = none →
      derive_key B .HASH len data km (some h) salt ic ea cm pm iv =
        .ok (B.hashDigest h d) ∧
      (B.hashDigest h d).length = digestSize h) ∧
    (∀ k, data = none → km = some k →
      derive_key B .HASH len data km (some h) salt ic ea cm pm iv =
        .ok (B.hashDigest h k) ∧
      (B.hashDigest h k).length = digestSize h) ∧
    derive_key B .HASH len data km (some h) salt ic ea cm pm iv =
      derive_key B .HASH len2 data km (some h) salt ic ea cm pm iv := by
  refine ⟨?_, ?_, ?_, ?_, rfl⟩
  · intro h1 h2
    simp [derive_key, hh, h1, h2]
  · rintro rfl rfl
    simp [derive_key, hh]
  · rintro d rfl rfl
    exact ⟨by simp [derive_key, hh], B.hashDigestLen h d⟩
  · rintro k rfl rfl
    exact ⟨by simp [derive_key, hh], B.hashDigestLen h k⟩

/-- Witness for C7 at MD5 over a single 3-byte buffer. -/
theorem derive_key_hash_witness :
    derive_key testBackend .HASH 5 (some [1, 2, 3]) none (some .MD5) none
        none none none none none = .ok (testBackend.hashDigest .MD5 [1, 2, 3]) ∧
    (testBackend.hashDigest .MD5 [1, 2, 3]).length = digestSize .MD5 :=
  (derive_key_hash_spec testBackend 5 99 (some [1, 2, 3]) none .MD5 none none
    none none none none rfl).2.2.1 [1, 2, 3] rfl rfl

/-- C8: derivation by encryption delegates to `encrypt` with the key
material as key, the derivation data as plaintext and the supplied
algorithm, mode, padding and IV, and keeps only the ciphertext bytes of the
result, discarding any auto-generated IV. -/
theorem derive_key_encrypt_delegation (B : Backend) (len : Nat)
    (data km : Option (List Nat)) (ha : Option HashingAlgorithm)
    (salt : Option (List Nat)) (ic : Option Nat)
    (ea : Option CryptographicAlgorithm) (cm : Option BlockCipherMode)
    (pm : Option PaddingMethod) (iv : Option (List Nat)) :
    derive_key B .ENCRYPT len data km ha salt ic ea cm pm iv =
      Except.map (fun r => r.cipher_text) (encrypt B ea km data cm pm iv) := by
  cases henc : encrypt B ea km data cm pm iv <;>
    simp [derive_key, henc, Except.map]

/-- C9 (amended): with a supported hash and key material supplied, HMAC
derivation whose requested length is within the HKDF bound returns exactly
that many bytes, and PBKDF2 derivation with salt and iteration count
supplied returns exactly the requested length; parameters the underlying
KDF itself rejects escape as untyped library errors rather than the two
declared kinds. -/
theorem derive_key_length_spec (B : Backend) (len : Nat)
    (data km : Option (List Nat)) (h : HashingAlgorithm)
    (salt : Option (List Nat)) (ic : Option Nat)
    (ea : Option CryptographicAlgorithm) (cm : Option BlockCipherMode)
    (pm : Option PaddingMethod) (iv : Option (List Nat))
    (hh : encryptionHashSupported h = true) :
    (∀ k, km = some k → len ≤ 255 * digestSize h →
      ∃ r, derive_key B .HMAC len data km (some h) salt ic ea cm pm iv =
          .ok r ∧ r.length = len) ∧
    (∀ k s n, km = some k → salt = some s → ic = some n →
      ∃ r, derive_key B .PBKDF2 len data km (some h) salt ic ea cm pm iv =
          .ok r ∧ r.length = len) := by
  constructor
  · rintro k rfl hlen
    exact ⟨B.hkdf h len salt data k,
      by simp [derive_key, hh, hkdfDerive, Nat.not_lt.mpr hlen],
      B.hkdfLen h len salt data k⟩
  · rintro k s n rfl rfl rfl
    exact ⟨B.pbkdf2 h len s n k,
      by simp [derive_key, hh, pbkdf2Derive],
      B.pbkdf2Len h len s n k⟩

/-- Counterexample for C9 as stated: an HMAC derivation length beyond the
HKDF limit of 255 times the digest size escapes as an untyped library
error, a third failure kind distinct from both declared ones. -/
theorem derive_key_uncaught_counterexample :
    derive_key testBackend .HMAC 8161 none (some (List.replicate 16 1))
        (some .SHA_256) none none none none none none = .error .uncaught ∧
    EngineError.uncaught ≠ EngineError.invalidField ∧
    EngineError.uncaught ≠ EngineError.cryptographicFailure :=
  ⟨rfl, by decide, by decide⟩

/-- Witness for the amended C9 at SHA-256 with 32 requested bytes. -/
theorem derive_key_length_witness :
    (∃ r, derive_key testBackend .HMAC 32 (some [9])
        (some (List.replicate 16 1)) (some .SHA_256) (some [7]) none none
        none none none = .ok r ∧ r.length = 32) ∧
    (∃ r, derive_key testBackend .PBKDF2 32 none (some (List.replicate 16 1))
        (some .SHA_256) (some [7]) (some 1000) none none none none =
        .ok r ∧ r.length = 32) := by
  constructor
  · exact (derive_key_length_spec testBackend 32 (some [9])
      (some (List.replicate 16 1)) .SHA_256 (some [7]) none none none none
      none rfl).1 (List.replicate 16 1) rfl (by decide)
  · exact (derive_key_length_spec testBackend 32 none
      (some (List.replicate 16 1)) .SHA_256 (some [7]) (some 1000) none none
      none none rfl).2 (List.replicate 16 1) [7] 1000 rfl rfl rfl

/-- C10 (amended): an `encrypt` call for RC4 with a supplied CBC or ECB
cipher mode skips mode setup yet still runs the padding step, driven only by
the supplied mode value: a missing or unsupported padding method is
`InvalidField`, and a supported one then fails with an untyped
`AttributeError` while reading the stream cipher's nonexistent block size,
so the plaintext is never padded and encrypted. -/
theorem encrypt_rc4_block_mode_spec (B : Backend) (key : List Nat)
    (pt : Option (List Nat)) (cm : BlockCipherMode) (iv : Option (List Nat))
    (hcm : cm = .CBC ∨ cm = .ECB) (hk : algKeyValid .RC4 key = true) :
    (encrypt B (some .RC4) (some key) pt (some cm) none iv =
      .error .invalidField) ∧
    (∀ p, symmetricPaddingSupported p = false →
      encrypt B (some .RC4) (some key) pt (some cm) (some p) iv =
        .error .invalidField) ∧
    (∀ p, symmetricPaddingSupported p = true →
      encrypt B (some .RC4) (some key) pt (some cm) (some p) iv =
        .error .uncaught) := by
  have hcond : some cm = some BlockCipherMode.CBC ∨
      some cm = some BlockCipherMode.ECB := by
    rcases hcm with rfl | rfl
    · exact Or.inl rfl
    · exact Or.inr rfl
  have hsetup : setupMode B .RC4 (some cm) iv = .ok (none, none) := by
    simp [setupMode]
  refine ⟨?_, ?_, ?_⟩
  · simp [encrypt, symmetricKeySupported, hk, hsetup, hcond, hcm,
      handle_symmetric_padding]
  · intro p hp
    simp [encrypt, symmetricKeySupported, hk, hsetup, hcond, hcm,
      handle_symmetric_padding, hp]
  · intro p hp
    simp [encrypt, symmetricKeySupported, hk, hsetup, hcond, hcm,
      handle_symmetric_padding, hp, blockSizeBits]

/-- Counterexample for C10 as stated: RC4 with CBC supplied and a supported
padding method neither pads-and-encrypts nor raises a declared error kind;
it escapes with an untyped error. -/
theorem rc4_padding_crash_counterexample :
    encrypt testBackend (some .RC4) (some (List.replicate 16 5))
        (some [1, 2, 3]) (some .CBC) (some .PKCS5) none = .error .uncaught ∧
    EngineError.uncaught ≠ EngineError.invalidField :=
  ⟨rfl, by decide⟩

/-- Witness for the amended C10 at RC4 with ECB supplied. -/
theorem encrypt_rc4_block_mode_witness :
    (encrypt testBackend (some .RC4) (some (List.replicate 16 5))
        (some [1, 2, 3]) (some .ECB) none none = .error .invalidField) ∧
    (encrypt testBackend (some .RC4) (some (List.replicate 16 5))
        (some [1, 2, 3]) (some .ECB) (some .OAEP) none =
      .error .invalidField) ∧
    (encrypt testBackend (some .RC4) (some (List.replicate 16 5))
        (some [1, 2, 3]) (some .ECB) (some .ANSI_X923) none =
      .error .uncaught) := by
  have h := encrypt_rc4_block_mode_spec testBackend (List.replicate 16 5)
    (some [1, 2, 3]) .ECB none (Or.inr rfl) (by decide)
  exact ⟨h.1, h.2.1 .OAEP rfl, h.2.2 .ANSI_X923 rfl⟩

end KmipEngine
